import Mathlib

/-!
# Verification of `PolarStereoPlateManager`

A shallow embedding of `src/vw/Plate/PolarStereoPlateManager.cc`:

* `georeference` — the three-argument descriptor builder
  (`PolarStereoPlateManager::georeference(level, north_pole, datum)`),
* `georeferenceLevelOnly` — the single-argument overload
  (`PolarStereoPlateManager::georeference(level)`),
* the pole vote and resolution selection performed by
  `PolarStereoPlateManager::transform_image`,
* `generate_mipmap_tile` — the mipmap synthesizer.

Real-valued projection math that the code delegates to collaborators
(`GeoTransform::forward`, `GeoReference::pixel_to_lonlat`) is abstracted as
function parameters; exact rational arithmetic stands in for `double`
arithmetic, and `ℝ` is used where the code takes square roots and logarithms.
-/

namespace VWPolar

/-- A reference ellipsoid.  Only the semi-major axis is consulted by the
code under verification (`datum.semi_major_axis()`). -/
structure Datum where
  semi_major_axis : ℚ
deriving DecidableEq

/-- Modelled from the spec: the WGS84 reference ellipsoid built by
`cartography::Datum("WGS84")` (its constructor is outside the repository
slice); its semi-major axis is 6378137 meters. -/
def wgs84 : Datum := ⟨6378137⟩

/-- The parameters stored by `GeoReference::set_stereographic(lat, lon,
scale, false_easting, false_northing)`. -/
structure StereoProj where
  centerLat : ℚ
  centerLon : ℚ
  scale : ℚ
  falseEasting : ℚ
  falseNorthing : ℚ
deriving DecidableEq

/-- A 3×3 matrix as used for the pixel→world affine transform. -/
structure Matrix3 where
  m00 : ℚ
  m01 : ℚ
  m02 : ℚ
  m10 : ℚ
  m11 : ℚ
  m12 : ℚ
  m20 : ℚ
  m21 : ℚ
  m22 : ℚ
deriving DecidableEq

/-- `math::identity_matrix<3>()`. -/
def identityMatrix : Matrix3 := ⟨1, 0, 0, 0, 1, 0, 0, 0, 1⟩

/-- A georeference: a datum, a stereographic projection and a pixel→world
affine transform (the fields of `cartography::GeoReference` that the code
under verification writes). -/
structure GeoRef where
  datum : Datum
  stereo : StereoProj
  transform : Matrix3
deriving DecidableEq

/-- `PolarStereoPlateManager::georeference(level, north_pole, datum)`:
builds a stereographic georeference centered on the chosen pole, with
pixel spacing `1 / (256 * 2^level / (2 * semi_major_axis))` and the affine
origin at `(-semi_major_axis, +semi_major_axis)`. -/
def georeference (level : ℤ) (north_pole : Bool) (datum : Datum) : GeoRef :=
  let pixels_per_meters : ℚ := 256 * 2 ^ level / (2 * datum.semi_major_axis)
  { datum := datum
    stereo := ⟨if north_pole then 90 else -90, 0, 1, 0, 0⟩
    transform :=
      { identityMatrix with
        m00 := 1 / pixels_per_meters
        m11 := -(1 / pixels_per_meters)
        m02 := -datum.semi_major_axis
        m12 := datum.semi_major_axis } }

/-- `PolarStereoPlateManager::georeference(level)`: the single-argument
overload, which unconditionally delegates to the three-argument builder
with `north_pole = true` and the WGS84 datum. -/
def georeferenceLevelOnly (level : ℤ) : GeoRef :=
  georeference level true wgs84

/-! ## The projection/level selector (`transform_image`)

`transform_image` samples five pixel locations, votes on the hemisphere by
latitude sign, and fits the pyramid level to the finest local resolution
demanded by the five samples.  The collaborator projection math
(`pixel_to_lonlat`, `GeoTransform::forward`) is abstracted as a function
parameter. -/

/-- The five sample points of `transform_image`: image center and the four
quadrant mid-points, computed with C++ integer division. -/
def testPoints (cols rows : ℕ) : List (ℕ × ℕ) :=
  [(cols / 2, rows / 2), (cols * 3 / 4, rows / 2), (cols * 1 / 4, rows / 2),
   (cols / 2, rows * 3 / 4), (cols / 2, rows * 1 / 4)]

/-- The hemisphere vote: how many of the five sample points have latitude
strictly above zero under the source georeference's `pixel_to_lonlat`
(abstracted as `lat`). -/
def northCount (lat : ℕ × ℕ → ℚ) (cols rows : ℕ) : ℕ :=
  (testPoints cols rows).countP fun p => decide (0 < lat p)

/-- `is_north = north_count > 2`. -/
def isNorth (lat : ℕ × ℕ → ℚ) (cols rows : ℕ) : Bool :=
  decide (2 < northCount lat cols rows)

/-- Modelled from the spec: `norm_2`, the Euclidean magnitude of a
2-vector (the "displacement magnitudes" of §4.2 step 4; `vw/Math` is
outside the repository slice). -/
noncomputable def norm2 (v : ℝ × ℝ) : ℝ := Real.sqrt (v.1 ^ 2 + v.2 ^ 2)

/-- The smaller of the two unit-pixel forward displacement magnitudes at a
sample point: `min(norm_2(x_res), norm_2(y_res))` for the abstracted
forward transform `fwd`. -/
noncomputable def minDisplacement (fwd : ℕ × ℕ → ℝ × ℝ) (p : ℕ × ℕ) : ℝ :=
  min (norm2 (fwd (p.1 + 1, p.2) - fwd p)) (norm2 (fwd (p.1, p.2 + 1) - fwd p))

/-- `i_resolution`: the reciprocal of the smaller displacement. -/
noncomputable def pointResolution (fwd : ℕ × ℕ → ℝ × ℝ) (p : ℕ × ℕ) : ℝ :=
  1 / minDisplacement fwd p

/-- The seed of the resolution scan: the coarsest possible resolution
`256 / (2 * semi_major_axis)`, set before any maximum is taken. -/
noncomputable def coarsestSeed (R : ℝ) : ℝ := 256 / (2 * R)

/-- The resolution scan of `transform_image`: start from `coarsestSeed`
and raise it to any larger `i_resolution` over the five sample points
(`if (i_resolution > requested_pixels_per_meters) ...`). -/
noncomputable def requestedPixelsPerMeters (fwd : ℕ × ℕ → ℝ × ℝ)
    (cols rows : ℕ) (R : ℝ) : ℝ :=
  (testPoints cols rows).foldl
    (fun acc p => if acc < pointResolution fwd p then pointResolution fwd p else acc)
    (coarsestSeed R)

/-- The level fit of `transform_image`:
`ceil(log(requested_pixels_per_meters * 2 * semi_major_axis / 256) / log 2)`. -/
noncomputable def selectLevel (fwd : ℕ × ℕ → ℝ × ℝ) (cols rows : ℕ) (R : ℝ) : ℤ :=
  ⌈Real.log (requestedPixelsPerMeters fwd cols rows R * 2 * R / 256) / Real.log 2⌉

/-! ## The mipmap synthesizer (`generate_mipmap_tile`)

The pixel types instantiated in the source (`PixelGrayA<...>`, `PixelRGBA`)
carry a value and an alpha (validity) channel; a pixel is "no data" when its
alpha is zero, and a default-constructed `ImageView` is zero-filled (wholly
transparent).  Exact rationals stand in for the channel arithmetic. -/

/-- A pixel with one value channel and an alpha (validity) channel. -/
structure Pix where
  val : ℚ
  alpha : ℚ
deriving DecidableEq

/-- The zero (transparent, "no data") pixel of a freshly allocated image. -/
def zeroPix : Pix := ⟨0, 0⟩

/-- A raster: dimensions plus a total pixel function. -/
structure ImageView where
  cols : ℕ
  rows : ℕ
  pix : ℕ → ℕ → Pix

/-- Modelled from the spec: the outcome of a tile-store read (§6, §9) — a
result type distinguishing `Found(tile)` / `Absent` (the store's
`TileNotFoundErr`) / any other store failure. -/
inductive ReadResult where
  | found (tile : ImageView)
  | notFound
  | err

/-- Modelled from the spec: the tile store collaborator (§6) — its fixed
tile side length `default_tile_size()` and its read operation keyed by
column, row, level, transaction and the exact-transaction flag. -/
structure Platefile where
  tileSize : ℕ
  read : ℕ → ℕ → ℕ → ℤ → Bool → ReadResult

/-- One store write issued by `write_update`: the tile and the
(col, row, level, transaction) key it is written under. -/
structure WriteRec where
  tile : ImageView
  col : ℕ
  row : ℕ
  level : ℕ
  transaction : ℤ

/-- Modelled from the spec: `crop(super, ts*i, ts*j, ts, ts) = child`
places the child tile into the `ts × ts` quadrant of the canvas at offset
`(i·ts, j·ts)` (§4.4 step 3). -/
def placeChild (ts i j : ℕ) (child : ImageView) (super : ImageView) : ImageView :=
  { super with
    pix := fun x y =>
      if ts * i ≤ x ∧ x < ts * i + ts ∧ ts * j ≤ y ∧ y < ts * j + ts then
        child.pix (x - ts * i) (y - ts * j)
      else super.pix x y }

/-- One iteration of the child-gathering loop: read child `(2·col + i,
2·row + j)` at `level+1` under the transaction with the exact flag set;
place it on success, on `TileNotFoundErr` do nothing; any other failure
propagates. -/
def readStep (pf : Platefile) (col row level : ℕ) (txn : ℤ)
    (super : ImageView) (ij : ℕ × ℕ) : Except Unit ImageView :=
  match pf.read (2 * col + ij.1) (2 * row + ij.2) (level + 1) txn true with
  | .found child => .ok (placeChild pf.tileSize ij.1 ij.2 child super)
  | .notFound => .ok super
  | .err => .error ()

/-- The child-gathering loop of `generate_mipmap_tile`: a zero-filled
`2·ts × 2·ts` canvas, then the four children in the loop's order
(`j` outer, `i` inner). -/
def buildSuper (pf : Platefile) (col row level : ℕ) (txn : ℤ) :
    Except Unit ImageView := do
  let s0 : ImageView := ⟨2 * pf.tileSize, 2 * pf.tileSize, fun _ _ => zeroPix⟩
  let s1 ← readStep pf col row level txn s0 (0, 0)
  let s2 ← readStep pf col row level txn s1 (1, 0)
  let s3 ← readStep pf col row level txn s2 (0, 1)
  readStep pf col row level txn s3 (1, 1)

/-- Mean of four pixels, channelwise. -/
def avg4 (a b c d : Pix) : Pix :=
  ⟨(a.val + b.val + c.val + d.val) / 4, (a.alpha + b.alpha + c.alpha + d.alpha) / 4⟩

/-- Modelled from the spec: the 2-tap `0.5, 0.5` separable box filter
followed by factor-2 decimation — an area-average downsample: each output
pixel is the mean of a `2×2` block of the input (§4.4 step 4). -/
def blurSubsample (im : ImageView) : ImageView :=
  ⟨im.cols / 2, im.rows / 2, fun x y =>
    avg4 (im.pix (2 * x) (2 * y)) (im.pix (2 * x + 1) (2 * y))
      (im.pix (2 * x) (2 * y + 1)) (im.pix (2 * x + 1) (2 * y + 1))⟩

/-- Modelled from the spec: `subsample(super, 2)` — stride-2 decimation
with no averaging (§4.4 step 4). -/
def subsample2 (im : ImageView) : ImageView :=
  ⟨im.cols / 2, im.rows / 2, fun x y => im.pix (2 * x) (2 * y)⟩

/-- The downsample step: blur-and-decimate when `preblur`, plain
decimation otherwise. -/
def downsampled (preblur : Bool) (im : ImageView) : ImageView :=
  if preblur then blurSubsample im else subsample2 im

/-- Modelled from the spec: `is_transparent(tile)` — true exactly when no
pixel carries valid data, i.e. every pixel's alpha channel is zero (§6's
`is_wholly_invalid`). -/
def isTransparentB (im : ImageView) : Bool :=
  (List.range im.cols).all fun x =>
    (List.range im.rows).all fun y => decide ((im.pix x y).alpha = 0)

/-- `PolarStereoPlateManager::generate_mipmap_tile(col, row, level,
transaction_id, preblur)`: gather the four children at `level+1`,
downsample the `2ts × 2ts` canvas to `ts × ts`, and write the result at
`(col, row, level)` under the transaction unless it is wholly
transparent. -/
def generate_mipmap_tile (pf : Platefile) (col row level : ℕ) (txn : ℤ)
    (preblur : Bool) : Except Unit (Option WriteRec) := do
  let super ← buildSuper pf col row level txn
  let new_tile := downsampled preblur super
  if isTransparentB new_tile then
    return none
  else
    return some ⟨new_tile, col, row, level, txn⟩

/-! ## Theorems -/

/-- The pixel spacing (transform entry `(0,0)`) produced by the builder is
`2 R / (256 * 2^level)`. -/
theorem georeference_m00 (level : ℤ) (pole : Bool) (d : Datum) :
    (georeference level pole d).transform.m00 =
      2 * d.semi_major_axis / (256 * 2 ^ level) := by
  show (1 : ℚ) / (256 * 2 ^ level / (2 * d.semi_major_axis)) = _
  rw [one_div_div]

/-- Claim C3: the three-argument descriptor builder returns a stereographic
projection centered at latitude +90° (north) or −90° (south), longitude 0,
scale 1, with pixel spacing `2R/(256·2^level)` in x (the code's tile size
constant is 256), its negation in y, and affine origin `(-R, +R)`. -/
theorem georeference_descriptor_fields (level : ℤ) (pole : Bool) (d : Datum)
    (hlevel : 0 ≤ level) (hR : 0 < d.semi_major_axis) :
    (georeference level pole d).stereo.centerLat = (if pole then 90 else -90) ∧
    (georeference level pole d).stereo.centerLon = 0 ∧
    (georeference level pole d).stereo.scale = 1 ∧
    (georeference level pole d).stereo.falseEasting = 0 ∧
    (georeference level pole d).stereo.falseNorthing = 0 ∧
    (georeference level pole d).transform.m00 =
      2 * d.semi_major_axis / (256 * 2 ^ level) ∧
    (georeference level pole d).transform.m11 =
      -(2 * d.semi_major_axis / (256 * 2 ^ level)) ∧
    (georeference level pole d).transform.m02 = -d.semi_major_axis ∧
    (georeference level pole d).transform.m12 = d.semi_major_axis ∧
    (georeference level pole d).datum = d := by
  refine ⟨rfl, rfl, rfl, rfl, rfl, georeference_m00 level pole d, ?_, rfl, rfl, rfl⟩
  show -((1 : ℚ) / (256 * 2 ^ level / (2 * d.semi_major_axis))) = _
  rw [one_div_div]

/-- Witness for C3 at a concrete input: level 0, north pole, WGS84. -/
theorem georeference_descriptor_fields_witness :
    (0 : ℤ) ≤ 0 ∧ (0 : ℚ) < wgs84.semi_major_axis ∧
    ((georeference 0 true wgs84).stereo.centerLat = (if true then 90 else -90) ∧
     (georeference 0 true wgs84).stereo.centerLon = 0 ∧
     (georeference 0 true wgs84).stereo.scale = 1 ∧
     (georeference 0 true wgs84).stereo.falseEasting = 0 ∧
     (georeference 0 true wgs84).stereo.falseNorthing = 0 ∧
     (georeference 0 true wgs84).transform.m00 =
       2 * wgs84.semi_major_axis / (256 * 2 ^ (0 : ℤ)) ∧
     (georeference 0 true wgs84).transform.m11 =
       -(2 * wgs84.semi_major_axis / (256 * 2 ^ (0 : ℤ))) ∧
     (georeference 0 true wgs84).transform.m02 = -wgs84.semi_major_axis ∧
     (georeference 0 true wgs84).transform.m12 = wgs84.semi_major_axis ∧
     (georeference 0 true wgs84).datum = wgs84) :=
  ⟨le_refl 0, by norm_num [wgs84],
   georeference_descriptor_fields 0 true wgs84 (le_refl 0) (by norm_num [wgs84])⟩

/-- Claim C8: for every level the single-argument builder returns the
north-pole descriptor unconditionally: it equals the three-argument builder
at `north_pole = true` with the WGS84 datum, and its projection center is
latitude +90°. -/
theorem georeferenceLevelOnly_north_unconditional (level : ℤ) :
    georeferenceLevelOnly level = georeference level true wgs84 ∧
    (georeferenceLevelOnly level).stereo.centerLat = 90 :=
  ⟨rfl, rfl⟩

/-- Claim C9: the single-argument builder bakes in the WGS84 datum — the
returned descriptor's datum, pixel spacing and affine origin are
WGS84-derived constants for every level; no pyramid datum enters the
computation (the function consults none). -/
theorem georeferenceLevelOnly_wgs84_fixed (level : ℤ) :
    (georeferenceLevelOnly level).datum = wgs84 ∧
    (georeferenceLevelOnly level).datum.semi_major_axis = 6378137 ∧
    (georeferenceLevelOnly level).transform.m00 =
      2 * 6378137 / (256 * 2 ^ level) ∧
    (georeferenceLevelOnly level).transform.m02 = -6378137 ∧
    (georeferenceLevelOnly level).transform.m12 = 6378137 := by
  refine ⟨rfl, rfl, ?_, rfl, rfl⟩
  have h := georeference_m00 level true wgs84
  simpa [wgs84] using h

/-- Monadic bind on `Except`, reduced at a success value. -/
theorem exceptBind_ok {ε α β : Type} (a : α) (f : α → Except ε β) :
    (Except.ok a : Except ε α) >>= f = f a := rfl

/-- Monadic bind on `Except`, short-circuiting at an error. -/
theorem exceptBind_error {ε α β : Type} (e : ε) (f : α → Except ε β) :
    (Except.error e : Except ε α) >>= f = Except.error e := rfl

/-- `pure` on `Except` is `Except.ok`. -/
theorem exceptPure {ε α : Type} (a : α) : (pure a : Except ε α) = Except.ok a := rfl

/-- `isTransparentB` decides whole-image invalidity. -/
theorem isTransparentB_iff (im : ImageView) :
    isTransparentB im = true ↔
      ∀ x < im.cols, ∀ y < im.rows, (im.pix x y).alpha = 0 := by
  simp [isTransparentB, List.all_eq_true, List.mem_range]

/-- `buildSuper` unfolded to its `Except.bind` chain. -/
theorem buildSuper_eq (pf : Platefile) (col row level : ℕ) (txn : ℤ) :
    buildSuper pf col row level txn =
      Except.bind
        (readStep pf col row level txn
          ⟨2 * pf.tileSize, 2 * pf.tileSize, fun _ _ => zeroPix⟩ (0, 0)) (fun s1 =>
        Except.bind (readStep pf col row level txn s1 (1, 0)) (fun s2 =>
          Except.bind (readStep pf col row level txn s2 (0, 1)) (fun s3 =>
            readStep pf col row level txn s3 (1, 1)))) := rfl

/-- A single loop iteration whose read does not fail: the canvas keeps its
dimensions, pixels outside the child's quadrant are untouched, and pixels
inside it hold the child's data when the read found a tile (untouched when
the tile was absent). -/
theorem readStep_ok (pf : Platefile) (col row level : ℕ) (txn : ℤ)
    (s : ImageView) (i j : ℕ)
    (h : pf.read (2 * col + i) (2 * row + j) (level + 1) txn true ≠ .err) :
    ∃ s', readStep pf col row level txn s (i, j) = .ok s' ∧
      s'.cols = s.cols ∧ s'.rows = s.rows ∧
      (∀ x y, ¬(pf.tileSize * i ≤ x ∧ x < pf.tileSize * i + pf.tileSize ∧
                pf.tileSize * j ≤ y ∧ y < pf.tileSize * j + pf.tileSize) →
        s'.pix x y = s.pix x y) ∧
      (∀ x y, (pf.tileSize * i ≤ x ∧ x < pf.tileSize * i + pf.tileSize ∧
               pf.tileSize * j ≤ y ∧ y < pf.tileSize * j + pf.tileSize) →
        s'.pix x y =
          match pf.read (2 * col + i) (2 * row + j) (level + 1) txn true with
          | .found c => c.pix (x - pf.tileSize * i) (y - pf.tileSize * j)
          | _ => s.pix x y) := by
  rcases e : pf.read (2 * col + i) (2 * row + j) (level + 1) txn true with c | _ | _
  · refine ⟨placeChild pf.tileSize i j c s, by simp [readStep, e], rfl, rfl, ?_, ?_⟩
    · intro x y hout
      simp only [placeChild]
      rw [if_neg hout]
    · intro x y hin
      simp only [placeChild]
      rw [if_pos hin]
  · exact ⟨s, by simp [readStep, e], rfl, rfl, fun _ _ _ => rfl,
      fun _ _ _ => rfl⟩
  · exact absurd e h

/-- When no child read fails, the gathering loop succeeds and the canvas
keeps its allocated `2·ts × 2·ts` dimensions. -/
theorem buildSuper_ok (pf : Platefile) (col row level : ℕ) (txn : ℤ)
    (h : ∀ i j, i < 2 → j < 2 →
      pf.read (2 * col + i) (2 * row + j) (level + 1) txn true ≠ .err) :
    ∃ s, buildSuper pf col row level txn = .ok s ∧
      s.cols = 2 * pf.tileSize ∧ s.rows = 2 * pf.tileSize := by
  obtain ⟨s1, e1, c1, r1, -, -⟩ :=
    readStep_ok pf col row level txn ⟨2 * pf.tileSize, 2 * pf.tileSize, fun _ _ => zeroPix⟩
      0 0 (h 0 0 (by norm_num) (by norm_num))
  obtain ⟨s2, e2, c2, r2, -, -⟩ :=
    readStep_ok pf col row level txn s1 1 0 (h 1 0 (by norm_num) (by norm_num))
  obtain ⟨s3, e3, c3, r3, -, -⟩ :=
    readStep_ok pf col row level txn s2 0 1 (h 0 1 (by norm_num) (by norm_num))
  obtain ⟨s4, e4, c4, r4, -, -⟩ :=
    readStep_ok pf col row level txn s3 1 1 (h 1 1 (by norm_num) (by norm_num))
  refine ⟨s4, ?_, by rw [c4, c3, c2, c1], by rw [r4, r3, r2, r1]⟩
  simp only [buildSuper_eq, e1, e2, e3, e4, Except.bind]

/-- The full characterization of the gathered canvas: within bounds, the
pixel at `(x, y)` comes from the child read at `(2·col + x/ts,
2·row + y/ts)` at `level+1` (offset by the quadrant corner), and is the
zero no-data pixel where that read reported the tile absent. -/
theorem buildSuper_spec (pf : Platefile) (col row level : ℕ) (txn : ℤ)
    (h : ∀ i j, i < 2 → j < 2 →
      pf.read (2 * col + i) (2 * row + j) (level + 1) txn true ≠ .err) :
    ∃ s, buildSuper pf col row level txn = .ok s ∧
      s.cols = 2 * pf.tileSize ∧ s.rows = 2 * pf.tileSize ∧
      ∀ x y, x < 2 * pf.tileSize → y < 2 * pf.tileSize →
        s.pix x y =
          match pf.read (2 * col + x / pf.tileSize) (2 * row + y / pf.tileSize)
              (level + 1) txn true with
          | .found c => c.pix (x % pf.tileSize) (y % pf.tileSize)
          | _ => zeroPix := by
  obtain ⟨s1, e1, c1, r1, out1, in1⟩ :=
    readStep_ok pf col row level txn ⟨2 * pf.tileSize, 2 * pf.tileSize, fun _ _ => zeroPix⟩
      0 0 (h 0 0 (by norm_num) (by norm_num))
  obtain ⟨s2, e2, c2, r2, out2, in2⟩ :=
    readStep_ok pf col row level txn s1 1 0 (h 1 0 (by norm_num) (by norm_num))
  obtain ⟨s3, e3, c3, r3, out3, in3⟩ :=
    readStep_ok pf col row level txn s2 0 1 (h 0 1 (by norm_num) (by norm_num))
  obtain ⟨s4, e4, c4, r4, out4, in4⟩ :=
    readStep_ok pf col row level txn s3 1 1 (h 1 1 (by norm_num) (by norm_num))
  refine ⟨s4, ?_, by rw [c4, c3, c2, c1], by rw [r4, r3, r2, r1], ?_⟩
  · simp only [buildSuper_eq, e1, e2, e3, e4, Except.bind]
  intro x y hx hy
  set ts := pf.tileSize with hts_eq
  rcases Nat.lt_or_ge x ts with hx0 | hx1 <;> rcases Nat.lt_or_ge y ts with hy0 | hy1
  · -- quadrant (0, 0)
    rw [Nat.div_eq_of_lt hx0, Nat.div_eq_of_lt hy0,
      out4 x y (by omega), out3 x y (by omega), out2 x y (by omega),
      in1 x y (by omega)]
    rcases e : pf.read (2 * col + 0) (2 * row + 0) (level + 1) txn true with c | _ | _
    · rw [Nat.mod_eq_of_lt hx0, Nat.mod_eq_of_lt hy0]
      simp
    · rfl
    · exact absurd e (h 0 0 (by norm_num) (by norm_num))
  · -- quadrant (0, 1)
    have hdy : y / ts = 1 := Nat.div_eq_of_lt_le (by omega) (by omega)
    have hmy : y % ts = y - ts := by
      rw [Nat.mod_eq_sub_mod hy1, Nat.mod_eq_of_lt (by omega)]
    rw [Nat.div_eq_of_lt hx0, hdy, out4 x y (by omega), in3 x y (by omega)]
    rcases e : pf.read (2 * col + 0) (2 * row + 1) (level + 1) txn true with c | _ | _
    · rw [Nat.mod_eq_of_lt hx0, hmy]
      simp
    · rw [out2 x y (by omega), out1 x y (by omega)]
    · exact absurd e (h 0 1 (by norm_num) (by norm_num))
  · -- quadrant (1, 0)
    have hdx : x / ts = 1 := Nat.div_eq_of_lt_le (by omega) (by omega)
    have hmx : x % ts = x - ts := by
      rw [Nat.mod_eq_sub_mod hx1, Nat.mod_eq_of_lt (by omega)]
    rw [hdx, Nat.div_eq_of_lt hy0, out4 x y (by omega), out3 x y (by omega),
      in2 x y (by omega)]
    rcases e : pf.read (2 * col + 1) (2 * row + 0) (level + 1) txn true with c | _ | _
    · rw [hmx, Nat.mod_eq_of_lt hy0]
      simp
    · rw [out1 x y (by omega)]
    · exact absurd e (h 1 0 (by norm_num) (by norm_num))
  · -- quadrant (1, 1)
    have hdx : x / ts = 1 := Nat.div_eq_of_lt_le (by omega) (by omega)
    have hmx : x % ts = x - ts := by
      rw [Nat.mod_eq_sub_mod hx1, Nat.mod_eq_of_lt (by omega)]
    have hdy : y / ts = 1 := Nat.div_eq_of_lt_le (by omega) (by omega)
    have hmy : y % ts = y - ts := by
      rw [Nat.mod_eq_sub_mod hy1, Nat.mod_eq_of_lt (by omega)]
    rw [hdx, hdy, in4 x y (by omega)]
    rcases e : pf.read (2 * col + 1) (2 * row + 1) (level + 1) txn true with c | _ | _
    · rw [hmx, hmy]
      simp
    · rw [out3 x y (by omega), out2 x y (by omega), out1 x y (by omega)]
    · exact absurd e (h 1 1 (by norm_num) (by norm_num))

/-- A failing child read (anything other than found / not-found) makes the
gathering loop abort with the error. -/
theorem buildSuper_err (pf : Platefile) (col row level : ℕ) (txn : ℤ)
    (h : ∃ i j, i < 2 ∧ j < 2 ∧
      pf.read (2 * col + i) (2 * row + j) (level + 1) txn true = .err) :
    buildSuper pf col row level txn = .error () := by
  obtain ⟨i, j, hi, hj, he⟩ := h
  interval_cases i <;> interval_cases j <;>
  · rcases e1 : pf.read (2 * col + 0) (2 * row + 0) (level + 1) txn true with c1 | _ | _ <;>
    rcases e2 : pf.read (2 * col + 1) (2 * row + 0) (level + 1) txn true with c2 | _ | _ <;>
    rcases e3 : pf.read (2 * col + 0) (2 * row + 1) (level + 1) txn true with c3 | _ | _ <;>
    rcases e4 : pf.read (2 * col + 1) (2 * row + 1) (level + 1) txn true with c4 | _ | _ <;>
    simp_all [buildSuper_eq, readStep, Except.bind]

/-- When all four child reads report the tile absent, the canvas comes out
of the loop exactly as allocated: zero-filled. -/
theorem buildSuper_allAbsent (pf : Platefile) (col row level : ℕ) (txn : ℤ)
    (h : ∀ i j, i < 2 → j < 2 →
      pf.read (2 * col + i) (2 * row + j) (level + 1) txn true = .notFound) :
    buildSuper pf col row level txn =
      .ok ⟨2 * pf.tileSize, 2 * pf.tileSize, fun _ _ => zeroPix⟩ := by
  simp only [buildSuper_eq, readStep, h 0 0 (by norm_num) (by norm_num),
    h 1 0 (by norm_num) (by norm_num), h 0 1 (by norm_num) (by norm_num),
    h 1 1 (by norm_num) (by norm_num), Except.bind]

/-- Downsampling (either setting) of a wholly zero-filled canvas is wholly
transparent. -/
theorem isTransparentB_downsampled_zero (preblur : Bool) (c r : ℕ) :
    isTransparentB (downsampled preblur ⟨c, r, fun _ _ => zeroPix⟩) = true := by
  rw [isTransparentB_iff]
  intro x _ y _
  cases preblur <;> simp [downsampled, subsample2, blurSubsample, avg4, zeroPix]

/-- Claim C1: with no failing child read, `generate_mipmap_tile` reaches
the write decision with the downsampled canvas: it issues no write and
returns no tile exactly when the result is wholly invalid, and otherwise
issues exactly the one write of that tile at `(col, row, level)` under the
given transaction.  In particular four absent children produce no write. -/
theorem generate_mipmap_write_suppression (pf : Platefile) (col row level : ℕ)
    (txn : ℤ) (preblur : Bool)
    (hnoerr : ∀ i j, i < 2 → j < 2 →
      pf.read (2 * col + i) (2 * row + j) (level + 1) txn true ≠ .err) :
    ∃ s, buildSuper pf col row level txn = .ok s ∧
      (isTransparentB (downsampled preblur s) = true →
        generate_mipmap_tile pf col row level txn preblur = .ok none) ∧
      (isTransparentB (downsampled preblur s) = false →
        generate_mipmap_tile pf col row level txn preblur =
          .ok (some ⟨downsampled preblur s, col, row, level, txn⟩)) ∧
      ((∀ i j, i < 2 → j < 2 →
          pf.read (2 * col + i) (2 * row + j) (level + 1) txn true = .notFound) →
        generate_mipmap_tile pf col row level txn preblur = .ok none) := by
  obtain ⟨s, hs, -, -⟩ := buildSuper_ok pf col row level txn hnoerr
  refine ⟨s, hs, ?_, ?_, ?_⟩
  · intro ht
    simp [generate_mipmap_tile, hs, exceptBind_ok, exceptPure, ht]
  · intro ht
    simp [generate_mipmap_tile, hs, exceptBind_ok, exceptPure, ht]
  · intro habs
    have hz := buildSuper_allAbsent pf col row level txn habs
    simp [generate_mipmap_tile, hz, exceptBind_ok, exceptPure,
      isTransparentB_downsampled_zero preblur]

/-- Witness for C1: a store whose four children are all absent; no write
is issued. -/
theorem generate_mipmap_write_suppression_witness :
    (∀ i j : ℕ, i < 2 → j < 2 →
      (Platefile.mk 2 fun _ _ _ _ _ => .notFound).read (2 * 0 + i) (2 * 0 + j)
        (0 + 1) 7 true ≠ .err) ∧
    ∃ s, buildSuper (Platefile.mk 2 fun _ _ _ _ _ => .notFound) 0 0 0 7 = .ok s ∧
      (isTransparentB (downsampled false s) = true →
        generate_mipmap_tile (Platefile.mk 2 fun _ _ _ _ _ => .notFound) 0 0 0 7 false =
          .ok none) ∧
      (isTransparentB (downsampled false s) = false →
        generate_mipmap_tile (Platefile.mk 2 fun _ _ _ _ _ => .notFound) 0 0 0 7 false =
          .ok (some ⟨downsampled false s, 0, 0, 0, 7⟩)) ∧
      ((∀ i j, i < 2 → j < 2 →
          (Platefile.mk 2 fun _ _ _ _ _ => .notFound).read (2 * 0 + i) (2 * 0 + j)
            (0 + 1) 7 true = .notFound) →
        generate_mipmap_tile (Platefile.mk 2 fun _ _ _ _ _ => .notFound) 0 0 0 7 false =
          .ok none) :=
  ⟨fun _ _ _ _ => by simp,
   generate_mipmap_write_suppression (Platefile.mk 2 fun _ _ _ _ _ => .notFound)
     0 0 0 7 false (fun _ _ _ _ => by simp)⟩

/-- Claim C2: each child read targets `(2·col + i, 2·row + j)` at
`level+1` with the exact-transaction flag; an absent child leaves its
quadrant zero (no-data) while a found child fills exactly its
`ts × ts` quadrant at offset `(i·ts, j·ts)`; and any other read failure
aborts the synthesis with the error. -/
theorem mipmap_child_reads_and_placement (pf : Platefile) (col row level : ℕ)
    (txn : ℤ) :
    ((∀ i j, i < 2 → j < 2 →
        pf.read (2 * col + i) (2 * row + j) (level + 1) txn true ≠ .err) →
      ∃ s, buildSuper pf col row level txn = .ok s ∧
        s.cols = 2 * pf.tileSize ∧ s.rows = 2 * pf.tileSize ∧
        ∀ x y, x < 2 * pf.tileSize → y < 2 * pf.tileSize →
          s.pix x y =
            match pf.read (2 * col + x / pf.tileSize) (2 * row + y / pf.tileSize)
                (level + 1) txn true with
            | .found child => child.pix (x % pf.tileSize) (y % pf.tileSize)
            | _ => zeroPix) ∧
    ((∃ i j, i < 2 ∧ j < 2 ∧
        pf.read (2 * col + i) (2 * row + j) (level + 1) txn true = .err) →
      ∀ preblur, generate_mipmap_tile pf col row level txn preblur = .error ()) := by
  refine ⟨buildSuper_spec pf col row level txn, fun he preblur => ?_⟩
  simp [generate_mipmap_tile, buildSuper_err pf col row level txn he, exceptBind_error]

/-- Halving a doubled coordinate: `(2u) / (2h) = u / h`. -/
theorem double_div (h u : ℕ) (hh : 0 < h) : 2 * u / (2 * h) = u / h := by
  have hd := Nat.div_add_mod u h
  have hm : u % h < h := Nat.mod_lt u hh
  apply Nat.div_eq_of_lt_le
  · have e : u / h * (2 * h) = 2 * (h * (u / h)) := by ring
    rw [e]; omega
  · have e : (u / h + 1) * (2 * h) = 2 * (h * (u / h)) + 2 * h := by ring
    rw [e]; omega

/-- Halving an odd doubled coordinate: `(2u + 1) / (2h) = u / h`. -/
theorem double_succ_div (h u : ℕ) (hh : 0 < h) : (2 * u + 1) / (2 * h) = u / h := by
  have hd := Nat.div_add_mod u h
  have hm : u % h < h := Nat.mod_lt u hh
  apply Nat.div_eq_of_lt_le
  · have e : u / h * (2 * h) = 2 * (h * (u / h)) := by ring
    rw [e]; omega
  · have e : (u / h + 1) * (2 * h) = 2 * (h * (u / h)) + 2 * h := by ring
    rw [e]; omega

/-- Which half of `[0, 2h)` a coordinate is in, as a division fact. -/
theorem div_quad (h x k : ℕ) (hh : 0 < h) (hk : k < 2) (hx : x < 2 * h) :
    x / h = k ↔ h * k ≤ x ∧ x < h * k + h := by
  have hd := Nat.div_add_mod x h
  have hm : x % h < h := Nat.mod_lt x hh
  interval_cases k
  · constructor
    · intro e; rw [e] at hd; omega
    · intro hc; exact Nat.div_eq_of_lt (by omega)
  · constructor
    · intro e; rw [e] at hd; omega
    · intro hc; exact Nat.div_eq_of_lt_le (by omega) (by omega)

/-- Downsampling halves the column count. -/
theorem downsampled_cols (preblur : Bool) (im : ImageView) :
    (downsampled preblur im).cols = im.cols / 2 := by
  cases preblur <;> rfl

/-- Downsampling halves the row count. -/
theorem downsampled_rows (preblur : Bool) (im : ImageView) :
    (downsampled preblur im).rows = im.rows / 2 := by
  cases preblur <;> rfl

/-- `downsampled` at `preblur = false` is plain decimation. -/
theorem downsampled_false (im : ImageView) : downsampled false im = subsample2 im := rfl

/-- `downsampled` at `preblur = true` is the box blur plus decimation. -/
theorem downsampled_true (im : ImageView) : downsampled true im = blurSubsample im := rfl

/-- The alpha channel of a four-pixel mean. -/
theorem avg4_alpha (a b c d : Pix) :
    (avg4 a b c d).alpha = (a.alpha + b.alpha + c.alpha + d.alpha) / 4 := rfl

/-- Claim C7: exactly one child present — wholly valid — and the other
three absent: the synthesized tile is written, and its pixels are valid
exactly on the quadrant corresponding to the present child, for both
preblur settings.  (`pf.tileSize = 2h` so the output tile is `2h × 2h`
with quadrant side `h`.) -/
theorem mipmap_partial_coverage_quadrant (pf : Platefile) (col row level : ℕ)
    (txn : ℤ) (i0 j0 h : ℕ) (child : ImageView)
    (hts : pf.tileSize = 2 * h) (hh : 0 < h) (hi : i0 < 2) (hj : j0 < 2)
    (hread : ∀ i j, i < 2 → j < 2 →
      pf.read (2 * col + i) (2 * row + j) (level + 1) txn true =
        if i = i0 ∧ j = j0 then .found child else .notFound)
    (hvalid : ∀ x y, x < pf.tileSize → y < pf.tileSize →
      0 < (child.pix x y).alpha) :
    ∀ preblur, ∃ w,
      generate_mipmap_tile pf col row level txn preblur = .ok (some w) ∧
      w.col = col ∧ w.row = row ∧ w.level = level ∧ w.transaction = txn ∧
      w.tile.cols = 2 * h ∧ w.tile.rows = 2 * h ∧
      ∀ x y, x < 2 * h → y < 2 * h →
        ((w.tile.pix x y).alpha ≠ 0 ↔
          h * i0 ≤ x ∧ x < h * i0 + h ∧ h * j0 ≤ y ∧ y < h * j0 + h) := by
  intro preblur
  have hh2 : 0 < 2 * h := by omega
  have hbi0 : h * i0 + h ≤ 2 * h := by interval_cases i0 <;> omega
  have hbj0 : h * j0 + h ≤ 2 * h := by interval_cases j0 <;> omega
  have hnoerr : ∀ i j, i < 2 → j < 2 →
      pf.read (2 * col + i) (2 * row + j) (level + 1) txn true ≠ .err := by
    intro i j hi2 hj2
    rw [hread i j hi2 hj2]
    split <;> simp
  obtain ⟨s, hs, hc, hr, hpix⟩ := buildSuper_spec pf col row level txn hnoerr
  rw [hts] at hc hr hpix hvalid
  -- the canvas, characterized on the 4h × 4h grid
  have key : ∀ u v, u < 4 * h → v < 4 * h →
      s.pix u v =
        if u / (2 * h) = i0 ∧ v / (2 * h) = j0 then
          child.pix (u % (2 * h)) (v % (2 * h))
        else zeroPix := by
    intro u v hu hv
    have hdu : u / (2 * h) < 2 := (Nat.div_lt_iff_lt_mul hh2).2 (by omega)
    have hdv : v / (2 * h) < 2 := (Nat.div_lt_iff_lt_mul hh2).2 (by omega)
    rw [hpix u v (by omega) (by omega), hread _ _ hdu hdv]
    by_cases hcond : u / (2 * h) = i0 ∧ v / (2 * h) = j0
    · rw [if_pos hcond, if_pos hcond]
    · rw [if_neg hcond, if_neg hcond]
  -- validity of the downsampled tile, pixel by pixel
  have halpha : ∀ x y, x < 2 * h → y < 2 * h →
      (0 < ((downsampled preblur s).pix x y).alpha ↔
        x / h = i0 ∧ y / h = j0) ∧
      (((downsampled preblur s).pix x y).alpha = 0 ↔
        ¬(x / h = i0 ∧ y / h = j0)) := by
    intro x y hx hy
    have dx0 : 2 * x / (2 * h) = x / h := double_div h x hh
    have dx1 : (2 * x + 1) / (2 * h) = x / h := double_succ_div h x hh
    have dy0 : 2 * y / (2 * h) = y / h := double_div h y hh
    have dy1 : (2 * y + 1) / (2 * h) = y / h := double_succ_div h y hh
    have hmx0 : 2 * x % (2 * h) < 2 * h := Nat.mod_lt _ hh2
    have hmx1 : (2 * x + 1) % (2 * h) < 2 * h := Nat.mod_lt _ hh2
    have hmy0 : 2 * y % (2 * h) < 2 * h := Nat.mod_lt _ hh2
    have hmy1 : (2 * y + 1) % (2 * h) < 2 * h := Nat.mod_lt _ hh2
    by_cases hq : x / h = i0 ∧ y / h = j0
    · cases preblur
      · have e := key (2 * x) (2 * y) (by omega) (by omega)
        rw [dx0, dy0, if_pos hq] at e
        have hv := hvalid _ _ hmx0 hmy0
        have hpixval : (downsampled false s).pix x y =
            child.pix (2 * x % (2 * h)) (2 * y % (2 * h)) := by
          rw [downsampled_false]; exact e
        rw [hpixval]
        exact ⟨⟨fun _ => hq, fun _ => hv⟩,
          ⟨fun h0 => absurd h0 hv.ne', fun hn => absurd hq hn⟩⟩
      · have e00 := key (2 * x) (2 * y) (by omega) (by omega)
        have e10 := key (2 * x + 1) (2 * y) (by omega) (by omega)
        have e01 := key (2 * x) (2 * y + 1) (by omega) (by omega)
        have e11 := key (2 * x + 1) (2 * y + 1) (by omega) (by omega)
        rw [dx0, dy0, if_pos hq] at e00
        rw [dx1, dy0, if_pos hq] at e10
        rw [dx0, dy1, if_pos hq] at e01
        rw [dx1, dy1, if_pos hq] at e11
        have h00 := hvalid _ _ hmx0 hmy0
        have h10 := hvalid _ _ hmx1 hmy0
        have h01 := hvalid _ _ hmx0 hmy1
        have h11 := hvalid _ _ hmx1 hmy1
        have hpixval : (downsampled true s).pix x y =
            avg4 (child.pix (2 * x % (2 * h)) (2 * y % (2 * h)))
              (child.pix ((2 * x + 1) % (2 * h)) (2 * y % (2 * h)))
              (child.pix (2 * x % (2 * h)) ((2 * y + 1) % (2 * h)))
              (child.pix ((2 * x + 1) % (2 * h)) ((2 * y + 1) % (2 * h))) := by
          rw [downsampled_true]
          show avg4 (s.pix (2 * x) (2 * y)) (s.pix (2 * x + 1) (2 * y))
            (s.pix (2 * x) (2 * y + 1)) (s.pix (2 * x + 1) (2 * y + 1)) = _
          rw [e00, e10, e01, e11]
        have hsum : 0 < ((downsampled true s).pix x y).alpha := by
          rw [hpixval, avg4_alpha]
          linarith [h00, h10, h01, h11]
        exact ⟨⟨fun _ => hq, fun _ => hsum⟩,
          ⟨fun h0 => absurd h0 hsum.ne', fun hn => absurd hq hn⟩⟩
    · have ezero : ((downsampled preblur s).pix x y).alpha = 0 := by
        cases preblur
        · have e := key (2 * x) (2 * y) (by omega) (by omega)
          rw [dx0, dy0, if_neg hq] at e
          have hpixval : (downsampled false s).pix x y = zeroPix := by
            rw [downsampled_false]; exact e
          rw [hpixval]; rfl
        · have e00 := key (2 * x) (2 * y) (by omega) (by omega)
          have e10 := key (2 * x + 1) (2 * y) (by omega) (by omega)
          have e01 := key (2 * x) (2 * y + 1) (by omega) (by omega)
          have e11 := key (2 * x + 1) (2 * y + 1) (by omega) (by omega)
          rw [dx0, dy0, if_neg hq] at e00
          rw [dx1, dy0, if_neg hq] at e10
          rw [dx0, dy1, if_neg hq] at e01
          rw [dx1, dy1, if_neg hq] at e11
          have hpixval : (downsampled true s).pix x y =
              avg4 zeroPix zeroPix zeroPix zeroPix := by
            rw [downsampled_true]
            show avg4 (s.pix (2 * x) (2 * y)) (s.pix (2 * x + 1) (2 * y))
              (s.pix (2 * x) (2 * y + 1)) (s.pix (2 * x + 1) (2 * y + 1)) = _
            rw [e00, e10, e01, e11]
          rw [hpixval, avg4_alpha]
          norm_num [zeroPix]
      rw [ezero]
      exact ⟨⟨fun h0 => absurd rfl h0.ne', fun hc => absurd hc hq⟩,
        ⟨fun _ => hq, fun _ => rfl⟩⟩
  -- the tile is written: the quadrant corner pixel is valid
  have hcorner : h * i0 / h = i0 ∧ h * j0 / h = j0 :=
    ⟨(div_quad h (h * i0) i0 hh hi (by omega)).2 ⟨le_refl _, by omega⟩,
     (div_quad h (h * j0) j0 hh hj (by omega)).2 ⟨le_refl _, by omega⟩⟩
  have hntc : (downsampled preblur s).cols = 2 * h := by
    rw [downsampled_cols, hc]; omega
  have hntr : (downsampled preblur s).rows = 2 * h := by
    rw [downsampled_rows, hr]; omega
  have htransp : isTransparentB (downsampled preblur s) = false := by
    rcases hb : isTransparentB (downsampled preblur s) with - | -
    · rfl
    · exfalso
      have hall := (isTransparentB_iff _).1 hb
      have h1 := hall (h * i0) (by rw [hntc]; omega) (h * j0) (by rw [hntr]; omega)
      exact ((halpha (h * i0) (h * j0) (by omega) (by omega)).2.1 h1)
        ⟨hcorner.1, hcorner.2⟩
  refine ⟨⟨downsampled preblur s, col, row, level, txn⟩, ?_, rfl, rfl, rfl, rfl,
    hntc, hntr, ?_⟩
  · simp [generate_mipmap_tile, hs, exceptBind_ok, exceptPure, htransp]
  · intro x y hx hy
    have hA := (halpha x y hx hy).1
    have hB := (halpha x y hx hy).2
    constructor
    · intro hne
      have hq : x / h = i0 ∧ y / h = j0 := by
        by_contra hcn
        exact hne (hB.2 hcn)
      exact ⟨((div_quad h x i0 hh hi hx).1 hq.1).1,
        ((div_quad h x i0 hh hi hx).1 hq.1).2,
        ((div_quad h y j0 hh hj hy).1 hq.2).1,
        ((div_quad h y j0 hh hj hy).1 hq.2).2⟩
    · intro hquad
      have hq : x / h = i0 ∧ y / h = j0 :=
        ⟨(div_quad h x i0 hh hi hx).2 ⟨hquad.1, hquad.2.1⟩,
         (div_quad h y j0 hh hj hy).2 ⟨hquad.2.2.1, hquad.2.2.2⟩⟩
      exact (hA.2 hq).ne'

/-- Witness for C7: tile size 2 (`h = 1`), the single child at quadrant
`(0, 0)` wholly valid, the other three absent. -/
theorem mipmap_partial_coverage_quadrant_witness :
    ((Platefile.mk 2 fun c r l _ _ =>
        if c = 0 ∧ r = 0 ∧ l = 6 then .found ⟨2, 2, fun _ _ => ⟨3, 1⟩⟩
        else .notFound).tileSize = 2 * 1 ∧
      0 < 1 ∧ (0 : ℕ) < 2 ∧ (0 : ℕ) < 2 ∧
      (∀ i j, i < 2 → j < 2 →
        (Platefile.mk 2 fun c r l _ _ =>
          if c = 0 ∧ r = 0 ∧ l = 6 then .found ⟨2, 2, fun _ _ => ⟨3, 1⟩⟩
          else .notFound).read (2 * 0 + i) (2 * 0 + j) (5 + 1) (-2) true =
            if i = 0 ∧ j = 0 then .found ⟨2, 2, fun _ _ => ⟨3, 1⟩⟩
            else .notFound) ∧
      (∀ x y : ℕ, x < 2 → y < 2 →
        (0 : ℚ) < ((⟨2, 2, fun _ _ => ⟨3, 1⟩⟩ : ImageView).pix x y).alpha)) ∧
    (∀ preblur, ∃ w,
      generate_mipmap_tile
        (Platefile.mk 2 fun c r l _ _ =>
          if c = 0 ∧ r = 0 ∧ l = 6 then .found ⟨2, 2, fun _ _ => ⟨3, 1⟩⟩
          else .notFound) 0 0 5 (-2) preblur = .ok (some w) ∧
      w.col = 0 ∧ w.row = 0 ∧ w.level = 5 ∧ w.transaction = -2 ∧
      w.tile.cols = 2 * 1 ∧ w.tile.rows = 2 * 1 ∧
      ∀ x y, x < 2 * 1 → y < 2 * 1 →
        ((w.tile.pix x y).alpha ≠ 0 ↔
          1 * 0 ≤ x ∧ x < 1 * 0 + 1 ∧ 1 * 0 ≤ y ∧ y < 1 * 0 + 1)) :=
  ⟨⟨rfl, Nat.one_pos, by norm_num, by norm_num,
    fun i j hi hj => by interval_cases i <;> interval_cases j <;> simp,
    fun x y _ _ => by norm_num⟩,
   mipmap_partial_coverage_quadrant
     (Platefile.mk 2 fun c r l _ _ =>
       if c = 0 ∧ r = 0 ∧ l = 6 then .found ⟨2, 2, fun _ _ => ⟨3, 1⟩⟩
       else .notFound) 0 0 5 (-2) 0 0 1 ⟨2, 2, fun _ _ => ⟨3, 1⟩⟩ rfl Nat.one_pos
     (by norm_num) (by norm_num)
     (fun i j hi hj => by interval_cases i <;> interval_cases j <;> simp)
     (fun x y _ _ => by norm_num)⟩

/-- The canvas that comes out of a successful gathering loop always has
the dimensions `2 · default_tile_size()`. -/
theorem buildSuper_dims (pf : Platefile) (col row level : ℕ) (txn : ℤ)
    (s : ImageView) (hok : buildSuper pf col row level txn = .ok s) :
    s.cols = 2 * pf.tileSize ∧ s.rows = 2 * pf.tileSize := by
  by_cases he : ∀ i j, i < 2 → j < 2 →
      pf.read (2 * col + i) (2 * row + j) (level + 1) txn true ≠ .err
  · obtain ⟨s', h', c', r'⟩ := buildSuper_ok pf col row level txn he
    rw [h'] at hok
    injection hok with h
    exact ⟨h ▸ c', h ▸ r'⟩
  · push_neg at he
    obtain ⟨i, j, hi, hj, hije⟩ := he
    have herr := buildSuper_err pf col row level txn ⟨i, j, hi, hj, hije⟩
    rw [herr] at hok
    exact absurd hok (by simp)

/-- The spec's tile-size-parametric pixel spacing formula,
`2R / (tile_size · 2^level)` (§4.1), for comparison with the code. -/
def spec_pixel_spacing (ts : ℕ) (level : ℤ) (R : ℚ) : ℚ :=
  2 * R / ((ts : ℚ) * 2 ^ level)

/-- Claim C10: the descriptor builder and the selector hard-code 256 as
the tile size — the builder's spacing matches the spec's
`tile_size`-parametric formula exactly when `tile_size = 256`, and so does
the selector's seed — while the synthesizer sizes its canvas and output
tile from the store's `default_tile_size()`. -/
theorem tile_size_constant_discrepancy (ts : ℕ) (level : ℤ) (pole : Bool)
    (d : Datum) (hR : 0 < d.semi_major_axis) :
    ((georeference level pole d).transform.m00 =
        spec_pixel_spacing ts level d.semi_major_axis ↔ ts = 256) ∧
    (coarsestSeed (d.semi_major_axis : ℝ) =
        (ts : ℝ) / (2 * (d.semi_major_axis : ℝ)) ↔ ts = 256) ∧
    (∀ pf : Platefile, ∀ col row lvl : ℕ, ∀ txn : ℤ, ∀ s : ImageView,
      buildSuper pf col row lvl txn = .ok s →
        s.cols = 2 * pf.tileSize ∧ s.rows = 2 * pf.tileSize) ∧
    (∀ pf : Platefile, ∀ col row lvl : ℕ, ∀ txn : ℤ, ∀ preblur : Bool,
      ∀ w : WriteRec,
      generate_mipmap_tile pf col row lvl txn preblur = .ok (some w) →
        w.tile.cols = pf.tileSize ∧ w.tile.rows = pf.tileSize) := by
  have h2l : (0 : ℚ) < 2 ^ level := by positivity
  have hRne : d.semi_major_axis ≠ 0 := ne_of_gt hR
  have hRr : (0 : ℝ) < (d.semi_major_axis : ℝ) := by exact_mod_cast hR
  refine ⟨?_, ?_, ?_, ?_⟩
  · rw [georeference_m00, spec_pixel_spacing]
    constructor
    · intro heq
      rcases eq_or_ne ts 0 with h0 | h0
      · exfalso
        rw [h0] at heq
        simp only [Nat.cast_zero, zero_mul, div_zero] at heq
        have : (0 : ℚ) < 2 * d.semi_major_axis / (256 * 2 ^ level) := by positivity
        rw [heq] at this
        exact lt_irrefl 0 this
      · have hts : ((ts : ℚ)) ≠ 0 := Nat.cast_ne_zero.2 h0
        rw [div_eq_div_iff (by positivity) (by positivity)] at heq
        have h256 : (256 : ℚ) * 2 ^ level = (ts : ℚ) * 2 ^ level := by
          have h2R : (0 : ℚ) < 2 * d.semi_major_axis := by positivity
          exact mul_left_cancel₀ (ne_of_gt h2R) (by linarith [heq])
        have : ((ts : ℚ)) = 256 := (mul_right_cancel₀ (ne_of_gt h2l) h256.symm)
        exact_mod_cast this
    · intro h
      subst h
      norm_num
  · rw [coarsestSeed]
    constructor
    · intro heq
      have h2R : (2 : ℝ) * (d.semi_major_axis : ℝ) ≠ 0 := by positivity
      have h76 := (div_left_inj' h2R).1 heq
      exact_mod_cast h76.symm
    · intro h
      subst h
      norm_num
  · exact fun pf col row lvl txn s hok => buildSuper_dims pf col row lvl txn s hok
  · intro pf col row lvl txn preblur w hok
    rcases hb : buildSuper pf col row lvl txn with u | s
    · rw [generate_mipmap_tile] at hok
      rw [hb] at hok
      simp [exceptBind_error] at hok
    · obtain ⟨hc, hr⟩ := buildSuper_dims pf col row lvl txn s hb
      rw [generate_mipmap_tile, hb] at hok
      by_cases htr : isTransparentB (downsampled preblur s) = true
      · simp [exceptBind_ok, exceptPure, htr] at hok
      · rw [Bool.not_eq_true] at htr
        simp [exceptBind_ok, exceptPure, htr] at hok
        have hw : w = ⟨downsampled preblur s, col, row, lvl, txn⟩ := hok.symm
        rw [hw]
        constructor
        · show (downsampled preblur s).cols = pf.tileSize
          rw [downsampled_cols, hc]; omega
        · show (downsampled preblur s).rows = pf.tileSize
          rw [downsampled_rows, hr]; omega

/-- Witness for C10 at tile size 7, level 0, south pole, WGS84. -/
theorem tile_size_constant_discrepancy_witness :
    (0 : ℚ) < wgs84.semi_major_axis ∧
    (((georeference 0 false wgs84).transform.m00 =
        spec_pixel_spacing 7 0 wgs84.semi_major_axis ↔ (7 : ℕ) = 256) ∧
     (coarsestSeed (wgs84.semi_major_axis : ℝ) =
        ((7 : ℕ) : ℝ) / (2 * (wgs84.semi_major_axis : ℝ)) ↔ (7 : ℕ) = 256) ∧
     (∀ pf : Platefile, ∀ col row lvl : ℕ, ∀ txn : ℤ, ∀ s : ImageView,
       buildSuper pf col row lvl txn = .ok s →
         s.cols = 2 * pf.tileSize ∧ s.rows = 2 * pf.tileSize) ∧
     (∀ pf : Platefile, ∀ col row lvl : ℕ, ∀ txn : ℤ, ∀ preblur : Bool,
       ∀ w : WriteRec,
       generate_mipmap_tile pf col row lvl txn preblur = .ok (some w) →
         w.tile.cols = pf.tileSize ∧ w.tile.rows = pf.tileSize)) :=
  ⟨by norm_num [wgs84],
   tile_size_constant_discrepancy 7 0 false wgs84 (by norm_num [wgs84])⟩

/-! ### The resolution scan as a running maximum -/

/-- The running maximum never drops below its start. -/
theorem foldlMax_init_le {α : Type} (f : α → ℝ) :
    ∀ (l : List α) (acc : ℝ),
      acc ≤ l.foldl (fun a q => if a < f q then f q else a) acc := by
  intro l
  induction l with
  | nil => intro acc; exact le_refl acc
  | cons a l ih =>
    intro acc
    simp only [List.foldl_cons]
    refine le_trans ?_ (ih _)
    by_cases hc : acc < f a
    · rw [if_pos hc]; exact le_of_lt hc
    · rw [if_neg hc]

/-- The running maximum dominates every scanned value. -/
theorem foldlMax_mem_le {α : Type} (f : α → ℝ) :
    ∀ (l : List α) (acc : ℝ) (p : α), p ∈ l →
      f p ≤ l.foldl (fun a q => if a < f q then f q else a) acc := by
  intro l
  induction l with
  | nil => intro acc p hp; cases hp
  | cons a l ih =>
    intro acc p hp
    rcases List.mem_cons.1 hp with h1 | h2
    · subst h1
      simp only [List.foldl_cons]
      refine le_trans ?_ (foldlMax_init_le f l _)
      by_cases hc : acc < f p
      · rw [if_pos hc]
      · rw [if_neg hc]; exact le_of_not_lt hc
    · simp only [List.foldl_cons]
      exact ih _ p h2

/-- The running maximum is either its seed or one of the scanned values. -/
theorem foldlMax_attained {α : Type} (f : α → ℝ) :
    ∀ (l : List α) (acc : ℝ),
      l.foldl (fun a q => if a < f q then f q else a) acc = acc ∨
      ∃ p ∈ l, l.foldl (fun a q => if a < f q then f q else a) acc = f p := by
  intro l
  induction l with
  | nil => intro acc; exact Or.inl rfl
  | cons a l ih =>
    intro acc
    simp only [List.foldl_cons]
    rcases ih (if acc < f a then f a else acc) with h | ⟨p, hp, hep⟩
    · by_cases hc : acc < f a
      · exact Or.inr ⟨a, List.mem_cons_self a l, by rw [h, if_pos hc]⟩
      · exact Or.inl (by rw [h, if_neg hc])
    · exact Or.inr ⟨p, List.mem_cons_of_mem a hp, hep⟩

/-- The seed never exceeds the requested resolution. -/
theorem coarsestSeed_le_rpm (fwd : ℕ × ℕ → ℝ × ℝ) (cols rows : ℕ) (R : ℝ) :
    coarsestSeed R ≤ requestedPixelsPerMeters fwd cols rows R :=
  foldlMax_init_le (pointResolution fwd) (testPoints cols rows) (coarsestSeed R)

/-- Every sample's resolution estimate is dominated by the requested
resolution. -/
theorem pointResolution_le_rpm (fwd : ℕ × ℕ → ℝ × ℝ) (cols rows : ℕ) (R : ℝ)
    (p : ℕ × ℕ) (hp : p ∈ testPoints cols rows) :
    pointResolution fwd p ≤ requestedPixelsPerMeters fwd cols rows R :=
  foldlMax_mem_le (pointResolution fwd) (testPoints cols rows) (coarsestSeed R) p hp

/-- The argument of the level-fitting logarithm is at least one. -/
theorem one_le_rpm_arg (fwd : ℕ × ℕ → ℝ × ℝ) (cols rows : ℕ) (R : ℝ)
    (hR : 0 < R) :
    1 ≤ requestedPixelsPerMeters fwd cols rows R * 2 * R / 256 := by
  have h1 := coarsestSeed_le_rpm fwd cols rows R
  have hseed : coarsestSeed R * 2 * R / 256 = 1 := by
    rw [coarsestSeed]
    field_simp
    ring
  calc (1 : ℝ) = coarsestSeed R * 2 * R / 256 := hseed.symm
  _ ≤ requestedPixelsPerMeters fwd cols rows R * 2 * R / 256 := by gcongr

/-- `ceil(log x / log 2)` is `ceil(logb 2 x)`. -/
theorem selectLevel_eq_ceil_logb (fwd : ℕ × ℕ → ℝ × ℝ) (cols rows : ℕ) (R : ℝ) :
    selectLevel fwd cols rows R =
      ⌈Real.logb 2 (requestedPixelsPerMeters fwd cols rows R * 2 * R / 256)⌉ := rfl

/-- The fitted level resolves the requested resolution:
`arg ≤ 2 ^ selectLevel`. -/
theorem rpm_arg_le_zpow_selectLevel (fwd : ℕ × ℕ → ℝ × ℝ) (cols rows : ℕ)
    (R : ℝ) (hR : 0 < R) :
    requestedPixelsPerMeters fwd cols rows R * 2 * R / 256 ≤
      (2 : ℝ) ^ selectLevel fwd cols rows R := by
  have harg : (0 : ℝ) < requestedPixelsPerMeters fwd cols rows R * 2 * R / 256 :=
    lt_of_lt_of_le one_pos (one_le_rpm_arg fwd cols rows R hR)
  rw [selectLevel_eq_ceil_logb]
  set arg := requestedPixelsPerMeters fwd cols rows R * 2 * R / 256 with harg_eq
  calc arg = (2 : ℝ) ^ Real.logb 2 arg :=
        (Real.rpow_logb (by norm_num) (by norm_num) harg).symm
  _ ≤ (2 : ℝ) ^ ((⌈Real.logb 2 arg⌉ : ℤ) : ℝ) := by
        exact (Real.rpow_le_rpow_left_iff (by norm_num : (1 : ℝ) < 2)).2
          (Int.le_ceil _)
  _ = (2 : ℝ) ^ (⌈Real.logb 2 arg⌉ : ℤ) := Real.rpow_intCast 2 _

/-- The fitted level is the least integer resolving the requested
resolution. -/
theorem selectLevel_min (fwd : ℕ × ℕ → ℝ × ℝ) (cols rows : ℕ) (R : ℝ)
    (hR : 0 < R) (m : ℤ)
    (hm : requestedPixelsPerMeters fwd cols rows R * 2 * R / 256 ≤ (2 : ℝ) ^ m) :
    selectLevel fwd cols rows R ≤ m := by
  have harg : (0 : ℝ) < requestedPixelsPerMeters fwd cols rows R * 2 * R / 256 :=
    lt_of_lt_of_le one_pos (one_le_rpm_arg fwd cols rows R hR)
  rw [selectLevel_eq_ceil_logb]
  apply Int.ceil_le.2
  calc Real.logb 2 (requestedPixelsPerMeters fwd cols rows R * 2 * R / 256)
      ≤ Real.logb 2 ((2 : ℝ) ^ m) :=
        Real.logb_le_logb_of_le (by norm_num) harg
          (by rw [← Real.rpow_intCast 2 m] at hm ⊢; exact hm)
  _ = (m : ℝ) := by
        rw [← Real.rpow_intCast 2 m]
        exact Real.logb_rpow (by norm_num) (by norm_num)

/-- Claim C4: the requested resolution is the maximum of the per-sample
reciprocal minimum displacements, seeded with `256/(2R)` before any
maximum is taken; hence the level-fitting logarithm's argument is at least
one (strictly positive), and the returned level is
`ceil(log2(requested · 2R / 256))` — the least integer whose power of two
reaches the argument. -/
theorem selector_resolution_seeding_and_level (fwd : ℕ × ℕ → ℝ × ℝ)
    (cols rows : ℕ) (R : ℝ) (hR : 0 < R) :
    coarsestSeed R ≤ requestedPixelsPerMeters fwd cols rows R ∧
    (∀ p ∈ testPoints cols rows,
      pointResolution fwd p ≤ requestedPixelsPerMeters fwd cols rows R) ∧
    (requestedPixelsPerMeters fwd cols rows R = coarsestSeed R ∨
      ∃ p ∈ testPoints cols rows,
        requestedPixelsPerMeters fwd cols rows R = pointResolution fwd p) ∧
    1 ≤ requestedPixelsPerMeters fwd cols rows R * 2 * R / 256 ∧
    0 < requestedPixelsPerMeters fwd cols rows R * 2 * R / 256 ∧
    selectLevel fwd cols rows R =
      ⌈Real.logb 2 (requestedPixelsPerMeters fwd cols rows R * 2 * R / 256)⌉ ∧
    requestedPixelsPerMeters fwd cols rows R * 2 * R / 256 ≤
      (2 : ℝ) ^ selectLevel fwd cols rows R ∧
    (∀ m : ℤ,
      requestedPixelsPerMeters fwd cols rows R * 2 * R / 256 ≤ (2 : ℝ) ^ m →
      selectLevel fwd cols rows R ≤ m) :=
  ⟨coarsestSeed_le_rpm fwd cols rows R,
   fun p hp => pointResolution_le_rpm fwd cols rows R p hp,
   foldlMax_attained (pointResolution fwd) (testPoints cols rows) (coarsestSeed R),
   one_le_rpm_arg fwd cols rows R hR,
   lt_of_lt_of_le one_pos (one_le_rpm_arg fwd cols rows R hR),
   selectLevel_eq_ceil_logb fwd cols rows R,
   rpm_arg_le_zpow_selectLevel fwd cols rows R hR,
   fun m hm => selectLevel_min fwd cols rows R hR m hm⟩

/-- Witness for C4: the identity-like forward transform on a 0×0 image,
unit semi-major axis. -/
theorem selector_resolution_seeding_and_level_witness :
    (0 : ℝ) < 1 ∧
    (coarsestSeed 1 ≤
        requestedPixelsPerMeters (fun p => ((p.1 : ℝ), (p.2 : ℝ))) 0 0 1 ∧
      (∀ p ∈ testPoints 0 0,
        pointResolution (fun p => ((p.1 : ℝ), (p.2 : ℝ))) p ≤
          requestedPixelsPerMeters (fun p => ((p.1 : ℝ), (p.2 : ℝ))) 0 0 1) ∧
      (requestedPixelsPerMeters (fun p => ((p.1 : ℝ), (p.2 : ℝ))) 0 0 1 =
          coarsestSeed 1 ∨
        ∃ p ∈ testPoints 0 0,
          requestedPixelsPerMeters (fun p => ((p.1 : ℝ), (p.2 : ℝ))) 0 0 1 =
            pointResolution (fun p => ((p.1 : ℝ), (p.2 : ℝ))) p) ∧
      1 ≤ requestedPixelsPerMeters (fun p => ((p.1 : ℝ), (p.2 : ℝ))) 0 0 1 * 2 * 1 / 256 ∧
      0 < requestedPixelsPerMeters (fun p => ((p.1 : ℝ), (p.2 : ℝ))) 0 0 1 * 2 * 1 / 256 ∧
      selectLevel (fun p => ((p.1 : ℝ), (p.2 : ℝ))) 0 0 1 =
        ⌈Real.logb 2
          (requestedPixelsPerMeters (fun p => ((p.1 : ℝ), (p.2 : ℝ))) 0 0 1 * 2 * 1 / 256)⌉ ∧
      requestedPixelsPerMeters (fun p => ((p.1 : ℝ), (p.2 : ℝ))) 0 0 1 * 2 * 1 / 256 ≤
        (2 : ℝ) ^ selectLevel (fun p => ((p.1 : ℝ), (p.2 : ℝ))) 0 0 1 ∧
      (∀ m : ℤ,
        requestedPixelsPerMeters (fun p => ((p.1 : ℝ), (p.2 : ℝ))) 0 0 1 * 2 * 1 / 256 ≤
          (2 : ℝ) ^ m →
        selectLevel (fun p => ((p.1 : ℝ), (p.2 : ℝ))) 0 0 1 ≤ m)) :=
  ⟨one_pos,
   selector_resolution_seeding_and_level (fun p => ((p.1 : ℝ), (p.2 : ℝ))) 0 0 1 one_pos⟩

/-- Claim C5: the level chosen by the selector, fed back into the
descriptor builder with the same datum, yields a pixel spacing no larger
than any sample point's local minimum displacement: no sample point is
under-resolved. -/
theorem selector_resolution_sufficiency (fwd : ℕ × ℕ → ℝ × ℝ) (cols rows : ℕ)
    (pole : Bool) (d : Datum) (hR : 0 < d.semi_major_axis)
    (hnd : ∀ p ∈ testPoints cols rows, 0 < minDisplacement fwd p) :
    ∀ p ∈ testPoints cols rows,
      (((georeference (selectLevel fwd cols rows (d.semi_major_axis : ℝ)) pole d
        ).transform.m00 : ℚ) : ℝ) ≤ minDisplacement fwd p := by
  intro p hp
  set R : ℝ := (d.semi_major_axis : ℝ) with hR_eq
  have hRr : (0 : ℝ) < R := by rw [hR_eq]; exact_mod_cast hR
  set L := selectLevel fwd cols rows R with hL_eq
  have hmd := hnd p hp
  have hrpm_pos : 0 < requestedPixelsPerMeters fwd cols rows R :=
    lt_of_lt_of_le (by rw [coarsestSeed]; positivity) (coarsestSeed_le_rpm fwd cols rows R)
  have hres : pointResolution fwd p ≤ requestedPixelsPerMeters fwd cols rows R :=
    pointResolution_le_rpm fwd cols rows R p hp
  have hzpow : (0 : ℝ) < (2 : ℝ) ^ L := zpow_pos (by norm_num) L
  have harg := rpm_arg_le_zpow_selectLevel fwd cols rows R hRr
  -- the builder's spacing, cast to ℝ
  have hm00 : (((georeference L pole d).transform.m00 : ℚ) : ℝ) =
      2 * R / (256 * (2 : ℝ) ^ L) := by
    rw [georeference_m00]
    push_cast
    rfl
  rw [hm00]
  -- 2R / (256 · 2^L) ≤ 1 / rpm
  have harg2 : requestedPixelsPerMeters fwd cols rows R * 2 * R ≤ (2 : ℝ) ^ L * 256 :=
    (div_le_iff (by norm_num)).1 harg
  have hstep1 : 2 * R / (256 * (2 : ℝ) ^ L) ≤
      1 / requestedPixelsPerMeters fwd cols rows R := by
    rw [div_le_div_iff (by positivity) hrpm_pos]
    linarith [harg2]
  -- 1 / rpm ≤ minDisplacement
  have hstep2 : 1 / requestedPixelsPerMeters fwd cols rows R ≤ minDisplacement fwd p := by
    have hinv : 1 / minDisplacement fwd p ≤ requestedPixelsPerMeters fwd cols rows R := by
      rw [show (1 : ℝ) / minDisplacement fwd p = pointResolution fwd p from rfl]
      exact hres
    have h1 : (0 : ℝ) < 1 / minDisplacement fwd p := by positivity
    calc 1 / requestedPixelsPerMeters fwd cols rows R
        ≤ 1 / (1 / minDisplacement fwd p) := one_div_le_one_div_of_le h1 hinv
    _ = minDisplacement fwd p := one_div_one_div _
  exact le_trans hstep1 hstep2

/-- Witness for C5: the integer-cast forward transform on a 0×0 image and
the WGS84 datum; every displacement has magnitude 1. -/
theorem selector_resolution_sufficiency_witness :
    (0 : ℚ) < wgs84.semi_major_axis ∧
    (∀ p ∈ testPoints 0 0,
      0 < minDisplacement (fun p => ((p.1 : ℝ), (p.2 : ℝ))) p) ∧
    (∀ p ∈ testPoints 0 0,
      (((georeference
          (selectLevel (fun p => ((p.1 : ℝ), (p.2 : ℝ))) 0 0
            (wgs84.semi_major_axis : ℝ)) true wgs84).transform.m00 : ℚ) : ℝ) ≤
        minDisplacement (fun p => ((p.1 : ℝ), (p.2 : ℝ))) p) := by
  have hdisp : ∀ p ∈ testPoints 0 0,
      0 < minDisplacement (fun p => ((p.1 : ℝ), (p.2 : ℝ))) p := by
    intro p hp
    simp only [testPoints, List.mem_cons, List.mem_singleton] at hp
    have hp00 : p = ((0 : ℕ), (0 : ℕ)) := by
      rcases hp with h | h | h | h | h <;> simpa using h
    subst hp00
    simp only [minDisplacement, norm2]
    norm_num [Real.sqrt_one]
  exact ⟨by norm_num [wgs84], hdisp,
    selector_resolution_sufficiency (fun p => ((p.1 : ℝ), (p.2 : ℝ))) 0 0 true wgs84
      (by norm_num [wgs84]) hdisp⟩

/-- Claim C6: the selector samples exactly the five points (center and
quadrant mid-points at 1/4 and 3/4 extents with integer division), counts
latitudes strictly above zero, and votes north exactly when the count
exceeds two; five positive latitudes give north and five non-positive
latitudes give south. -/
theorem selector_hemisphere_vote (lat : ℕ × ℕ → ℚ) (cols rows : ℕ) :
    (testPoints cols rows).length = 5 ∧
    testPoints cols rows =
      [(cols / 2, rows / 2), (cols * 3 / 4, rows / 2), (cols * 1 / 4, rows / 2),
       (cols / 2, rows * 3 / 4), (cols / 2, rows * 1 / 4)] ∧
    northCount lat cols rows =
      ((testPoints cols rows).filter fun p => decide (0 < lat p)).length ∧
    (isNorth lat cols rows = true ↔ 2 < northCount lat cols rows) ∧
    ((∀ p ∈ testPoints cols rows, 0 < lat p) → isNorth lat cols rows = true) ∧
    ((∀ p ∈ testPoints cols rows, lat p ≤ 0) → isNorth lat cols rows = false) := by
  refine ⟨rfl, rfl, List.countP_eq_length_filter _ _, decide_eq_true_iff, ?_, ?_⟩
  · intro hall
    have h5 : northCount lat cols rows = 5 := by
      rw [northCount]
      exact List.countP_eq_length.2 fun p hp => decide_eq_true (hall p hp)
    rw [isNorth, h5]
    decide
  · intro hall
    have h0 : northCount lat cols rows = 0 := by
      rw [northCount, List.countP_eq_zero]
      intro p hp
      simpa using not_lt.2 (hall p hp)
    rw [isNorth, h0]
    decide

end VWPolar
